import Mathlib

/-!
Shallow embedding of the stock-bot core logic (bot.py): the stock ledger and
its command-surface mutations, the authorization gate, the status embed
renderer, stock-message reconciliation, and the ticket-creation watcher.

A Python dict is embedded as an association list whose first binding for a
key is the dict entry; fallible platform calls (file writes, user fetches,
message sends) are passed in as Except-valued parameters, and a Python
exception propagating out of a handler is an Except.error result.
-/

namespace TGPBot

/-- The stock ledger: stock.json loaded as a mapping from product name to an
integer count (bot.py line 54). -/
abbrev Ledger := List (String × Int)

/-- Default ledger written when stock.json is absent (bot.py lines 39-47). -/
def defaultStock : Ledger :=
  [("Hex Lifetime", 0), ("Hex Monthly", 0), ("SRC Lifetime", 0), ("SRC Monthly", 0)]

/-- Dict lookup: the value of the first binding of key k, if any. -/
def lookupD (l : Ledger) (k : String) : Option Int :=
  (l.find? (fun kv => kv.1 == k)).map (fun kv => kv.2)

/-- Dict assignment stock[k] = v: replace the first binding of k (append if
absent; in the program k always comes from the dict's own keys). -/
def setK : Ledger → String → Int → Ledger
  | [], k, v => [(k, v)]
  | kv :: rest, k, v => if kv.1 == k then (k, v) :: rest else kv :: setK rest k v

/-- Embeds stock.get(k, 0) (bot.py lines 130-139). -/
def getD0 (l : Ledger) (k : String) : Int := (lookupD l k).getD 0

/-- Embeds Python str.lower() over the string's characters. -/
def pyLower (s : List Char) : List Char := s.map Char.toLower

/-- Embeds Python str.strip(): drop whitespace from both ends. -/
def pyStrip (s : List Char) : List Char :=
  ((s.dropWhile Char.isWhitespace).reverse.dropWhile Char.isWhitespace).reverse

/-- Embeds product.strip().lower() (bot.py lines 195, 227). -/
def normalizeProduct (p : String) : List Char := pyLower (pyStrip p.data)

/-- Embeds next((key for key in stock.keys() if key.lower() == product_clean),
None) (bot.py lines 196, 228). -/
def findMatch (l : Ledger) (p : String) : Option String :=
  (l.map (fun kv => kv.1)).find? (fun k => pyLower k.data == normalizeProduct p)

/-- Ledger effect of the addstock command body: stock[match] += amount
(bot.py line 207); no match leaves the ledger unchanged (bot.py line 204). -/
def addStockOp (l : Ledger) (p : String) (a : Int) : Ledger :=
  match findMatch l p with
  | none => l
  | some k => setK l k ((lookupD l k).getD 0 + a)

/-- Ledger effect of the removestock command body:
stock[match] = max(0, stock[match] - amount) (bot.py line 239). -/
def removeStockOp (l : Ledger) (p : String) (a : Int) : Ledger :=
  match findMatch l p with
  | none => l
  | some k => setK l k (max 0 ((lookupD l k).getD 0 - a))

/-- Ledger effect of the resetstock command body: every key set to 0
(bot.py lines 278-279). -/
def resetStockOp (l : Ledger) : Ledger := l.map (fun kv => (kv.1, (0 : Int)))

/-- Every count in the ledger is non-negative. -/
def ledgerNonNeg (l : Ledger) : Bool := l.all (fun kv => decide (0 ≤ kv.2))

/-- No clamping can occur in a removeStock step on this product: the matched
entry's current count is non-negative (vacuously true when nothing matches). -/
def matchedNonNeg (l : Ledger) (p : String) : Bool :=
  match findMatch l p with
  | none => true
  | some k => decide (0 ≤ (lookupD l k).getD 0)

/-- The invoking identity of an interaction: either a guild member carrying a
role-id list (discord.Member, which has .roles) or a plain user
(discord.User, which has no .roles attribute). -/
inductive Invoker where
  | member (roles : List Nat)
  | user
deriving DecidableEq

/-- The inline authorization check of addstock and removestock (bot.py lines
190, 222): any(r.id in config["authorized_roles"] for r in
interaction.user.roles). On a plain user, attribute access .roles raises
AttributeError, which the handler does not catch. -/
def inlineRoleCheck (cfg : List Nat) : Invoker → Except String Bool
  | .member roles => .ok (roles.any (fun r => cfg.contains r))
  | .user => .error "AttributeError: User object has no attribute roles"

/-- Result of resolving a member through interaction.guild (bot.py lines
107-111): ok (some roles) when the member was found, ok none when there is no
guild or no member, error when get_member/fetch_member raised. -/
abbrev GuildFetch := Except String (Option (List Nat))

/-- Embeds has_authorized_role (bot.py lines 94-116): try/except wrapping an
empty-config early false, member resolution, and the role-intersection test;
every exception is caught and turned into False. -/
def has_authorized_role (cfg : List Nat) (inv : Invoker) (gf : GuildFetch) : Bool :=
  if cfg.isEmpty then false
  else
    match inv with
    | .member roles => roles.any (fun r => cfg.contains r)
    | .user =>
      match gf with
      | .ok (some roles) => roles.any (fun r => cfg.contains r)
      | .ok none => false
      | .error _ => false

/-- Outcome of the fallible stock.json write: ok, or the raised exception. -/
abbrev WriteResult := Except String Unit

/-- Embeds save_stock (bot.py lines 87-92): the write is wrapped in
try/except; a failure only produces a log line, nothing propagates. -/
def save_stock (w : WriteResult) : List String :=
  match w with
  | .ok _ => []
  | .error e => ["Failed to write stock.json: " ++ e]

/-- Embeds the addstock handler (bot.py lines 188-215) as a function from the
invocation to (control-flow result, final in-memory ledger). The Except.error
result is a Python exception escaping the handler; the ok result lists the
responses and log lines produced. The inline role check can raise; the
stock.json write (lines 208-209) is NOT guarded by any try/except, and the
dict mutation (line 207) happens before it. -/
def addstockRun (cfg : List Nat) (inv : Invoker) (l : Ledger) (product : String)
    (amount : Int) (w : WriteResult) : Except String (List String) × Ledger :=
  match inlineRoleCheck cfg inv with
  | .error e => (.error e, l)
  | .ok auth =>
    if !auth then (.ok ["⛔ You are not authorized to use this command."], l)
    else
      match findMatch l product with
      | none =>
        (.ok ["⚠️ Invalid product name.\nAvailable products: " ++
          String.intercalate ", " (l.map (fun kv => kv.1))], l)
      | some k =>
        let l' := setK l k ((lookupD l k).getD 0 + amount)
        match w with
        | .error e => (.error e, l')
        | .ok _ => (.ok ["✅ Added **" ++ toString amount ++ "** units to **" ++ k ++ "**."], l')

/-- Embeds the removestock handler (bot.py lines 220-247), same shape as
addstock but with the clamped mutation (line 239) and the same unguarded
stock.json write (lines 240-241). -/
def removestockRun (cfg : List Nat) (inv : Invoker) (l : Ledger) (product : String)
    (amount : Int) (w : WriteResult) : Except String (List String) × Ledger :=
  match inlineRoleCheck cfg inv with
  | .error e => (.error e, l)
  | .ok auth =>
    if !auth then (.ok ["⛔ You are not authorized to use this command."], l)
    else
      match findMatch l product with
      | none =>
        (.ok ["⚠️ Invalid product name.\nAvailable products: " ++
          String.intercalate ", " (l.map (fun kv => kv.1))], l)
      | some k =>
        let l' := setK l k (max 0 ((lookupD l k).getD 0 - amount))
        match w with
        | .error e => (.error e, l')
        | .ok _ => (.ok ["✅ Removed **" ++ toString amount ++ "** units from **" ++ k ++ "**."], l')

/-- Embeds the resetstock handler (bot.py lines 273-282): gated by
has_authorized_role, zeroes every key, persists through save_stock (which
swallows I/O failure). -/
def resetstockRun (cfg : List Nat) (inv : Invoker) (gf : GuildFetch) (l : Ledger)
    (w : WriteResult) : Except String (List String) × Ledger :=
  if !(has_authorized_role cfg inv gf) then (.ok ["⛔ You are not authorized."], l)
  else
    let l' := resetStockOp l
    (.ok (save_stock w ++ ["🧹 All stock reset to 0."]), l')

/-- The status embed content built by generate_stock_embed (bot.py lines
119-143); the render timestamp is excluded from content. -/
structure StockEmbed where
  title : String
  description : String
  color : Nat
  hexName : String
  hexValue : String
  srcName : String
  srcValue : String
deriving DecidableEq

/-- The Hex Lifetime sub-line of the embed (bot.py line 130). -/
def hexLifetimeLine (l : Ledger) : String :=
  "Lifetime — " ++ (if 0 < getD0 l "Hex Lifetime" then "🟢 In Stock — **$80**"
    else "🔴 Out of Stock — **$80**")

/-- The Hex Monthly sub-line of the embed (bot.py line 131). -/
def hexMonthlyLine (l : Ledger) : String :=
  "Monthly — " ++ (if 0 < getD0 l "Hex Monthly" then "🟢 In Stock — **$13**"
    else "🔴 Out of Stock — **$13**")

/-- The SRC Lifetime sub-line of the embed (bot.py line 138). -/
def srcLifetimeLine (l : Ledger) : String :=
  "Lifetime — " ++ (if 0 < getD0 l "SRC Lifetime" then "🟢 In Stock — **$65**"
    else "🔴 Out of Stock — **$65**")

/-- The SRC Monthly sub-line of the embed (bot.py line 139). -/
def srcMonthlyLine (l : Ledger) : String :=
  "Monthly — " ++ (if 0 < getD0 l "SRC Monthly" then "🟢 In Stock — **$12**"
    else "🔴 Out of Stock — **$12**")

/-- Embeds generate_stock_embed (bot.py lines 119-143). -/
def generate_stock_embed (l : Ledger) : StockEmbed :=
  ⟨"The Golden Prism Store", "This message is updated automatically.", 0x00AAFF,
    "《Hex:》", hexLifetimeLine l ++ "\n" ++ hexMonthlyLine l,
    "《SRC:》", srcLifetimeLine l ++ "\n" ++ srcMonthlyLine l⟩

/-- A channel message, reduced to what the reconciliation logic inspects: the
author's user id, plus an id to tell messages apart. -/
structure Msg where
  author : Nat
  mid : Nat
deriving DecidableEq

/-- Embeds find_own_stock_message (bot.py lines 145-153): iterate the
channel's history newest-first with limit=100 and return the first message
whose author id equals the bot's user id. The history is embedded as the
channel's messages newest-first. -/
def find_own_stock_message (botId : Nat) (history : List Msg) : Option Msg :=
  (history.take 100).find? (fun m => m.author == botId)

/-- The message operations update_stock_message performs on the channel. -/
inductive MsgAction where
  | edit (m : Msg) (e : StockEmbed)
  | send (e : StockEmbed)
deriving DecidableEq

/-- Embeds the reconciliation core of update_stock_message (bot.py lines
175-181), after the channel has been resolved and permissions verified: edit
the found message in place, else send one new message. -/
def update_stock_message (botId : Nat) (history : List Msg) (l : Ledger) : List MsgAction :=
  match find_own_stock_message botId history with
  | some m => [.edit m (generate_stock_embed l)]
  | none => [.send (generate_stock_embed l)]

/-- Length of the run of decimal digits at the front of the character list. -/
def digitPrefixLen : List Char → Nat
  | [] => 0
  | c :: cs => if c.isDigit then digitPrefixLen cs + 1 else 0

/-- Embeds re.search(r"\d{17,19}", s) (bot.py line 310): Python's
leftmost-then-greedy search. Positions are tried left to right; at the first
position where at least 17 consecutive digits start, the quantifier greedily
takes up to 19 of them; otherwise the search moves one character right. -/
def reSearch17to19 : List Char → Option (List Char)
  | [] => none
  | c :: cs =>
    if 17 ≤ digitPrefixLen (c :: cs) then
      some ((c :: cs).take (min (digitPrefixLen (c :: cs)) 19))
    else reSearch17to19 cs

/-- True when the list is empty or its last character is not a digit, i.e.
the list does not end inside a digit run. -/
def lastNotDigit : List Char → Bool
  | [] => true
  | [c] => !c.isDigit
  | _ :: c :: cs => lastNotDigit (c :: cs)

/-- Numeric value of a decimal digit string, embedding int(m.group(0))
(bot.py line 313). -/
def digitsVal (ds : List Char) : Nat :=
  ds.foldl (fun n c => n * 10 + (c.toNat - 48)) 0

/-- Ticket-watch configuration (config.json): the watched category id and the
alert recipient id, 0 meaning unset (Python falsy). -/
structure TicketCfg where
  ticket_category_id : Nat
  alert_user_id : Nat
deriving DecidableEq

/-- A newly created guild channel as seen by the watcher: its name, its
parent category id (none when the channel has no category), and its mention
string. -/
structure NewChannel where
  name : String
  category_id : Option Nat
  mention : String
deriving DecidableEq

/-- Platform calls the watcher makes, each of which may raise. fetchAlertUser
models bot.fetch_user(alert_user_id), with ok none for a falsy result;
fetchNamedUser models bot.fetch_user(id) for the "Opened By" attribution and
returns the user's display string; sendDM models alert_user.send(embed). -/
structure WatchEnv where
  fetchAlertUser : Except String (Option Nat)
  fetchNamedUser : Nat → Except String String
  sendDM : Except String Unit

/-- The ticket alert embed content (bot.py lines 300-316). -/
structure TicketEmbed where
  title : String
  description : String
  openedBy : Option String
deriving DecidableEq

/-- Observable actions of the watcher: log lines and the direct message. -/
inductive WatchAction where
  | logLine (s : String)
  | dm (recipient : Nat) (e : TicketEmbed)
deriving DecidableEq

/-- The body of on_guild_channel_create inside its try block (bot.py lines
288-319): category filter, alert-recipient check, alert-user fetch, digit
extraction from the channel name with an inner try/except around the
attribution fetch, and the DM send. An Except.error result is an exception
reaching the surrounding try. -/
def watcherBody (cfg : TicketCfg) (ch : NewChannel) (env : WatchEnv) :
    Except String (List WatchAction) :=
  if ch.category_id ≠ some cfg.ticket_category_id then .ok []
  else if cfg.alert_user_id = 0 then
    .ok [.logLine "alert_user_id not configured; skipping ticket DM."]
  else
    match env.fetchAlertUser with
    | .error e => .error e
    | .ok none =>
      .ok [.logLine "Could not fetch alert user; they may have DMs closed or ID incorrect."]
    | .ok (some uid) =>
      let openedBy : Option String :=
        match reSearch17to19 (pyStrip ch.name.data) with
        | none => none
        | some ds =>
          match env.fetchNamedUser (digitsVal ds) with
          | .ok u => some u
          | .error _ => some ("User ID " ++ String.mk ds)
      let e : TicketEmbed :=
        ⟨"🎟️ New Ticket Opened", "A new ticket was created: " ++ ch.mention, openedBy⟩
      match env.sendDM with
      | .error err => .error err
      | .ok _ => .ok [.dm uid e, .logLine ("📩 DM sent about new ticket " ++ ch.name)]

/-- Embeds on_guild_channel_create (bot.py lines 285-321): the whole body is
wrapped in try/except, so any exception becomes a log line and the handler
always returns normally. -/
def on_guild_channel_create (cfg : TicketCfg) (ch : NewChannel) (env : WatchEnv) :
    List WatchAction :=
  match watcherBody cfg ch env with
  | .ok acts => acts
  | .error e => [.logLine ("⚠️ Ticket watcher error: " ++ e)]

/-! ## Ledger lemmas -/

theorem lookupD_cons_pos (kv : String × Int) (rest : Ledger) (k : String)
    (hk : (kv.1 == k) = true) : lookupD (kv :: rest) k = some kv.2 := by
  simp [lookupD, List.find?_cons, hk]

theorem lookupD_cons_neg (kv : String × Int) (rest : Ledger) (k : String)
    (hk : ¬((kv.1 == k) = true)) : lookupD (kv :: rest) k = lookupD rest k := by
  simp only [lookupD, List.find?_cons, Bool.eq_false_iff.mpr hk, cond_false]

theorem setK_cons_pos (kv : String × Int) (rest : Ledger) (k : String) (v : Int)
    (hk : (kv.1 == k) = true) : setK (kv :: rest) k v = (k, v) :: rest := by
  simp only [setK, if_pos hk]

theorem setK_cons_neg (kv : String × Int) (rest : Ledger) (k : String) (v : Int)
    (hk : ¬((kv.1 == k) = true)) : setK (kv :: rest) k v = kv :: setK rest k v := by
  simp only [setK, if_neg hk]

theorem lookupD_nonneg (k : String) (c : Int) (l : Ledger)
    (hl : ledgerNonNeg l = true) (h : lookupD l k = some c) : 0 ≤ c := by
  induction l with
  | nil => simp [lookupD] at h
  | cons kv rest ih =>
    simp only [ledgerNonNeg, List.all_cons, Bool.and_eq_true, decide_eq_true_eq] at hl
    by_cases hk : (kv.1 == k) = true
    · rw [lookupD_cons_pos kv rest k hk] at h
      have := Option.some.inj h
      omega
    · rw [lookupD_cons_neg kv rest k hk] at h
      exact ih hl.2 h

theorem getD0_nonneg (k : String) (l : Ledger) (hl : ledgerNonNeg l = true) :
    0 ≤ getD0 l k := by
  unfold getD0
  cases h : lookupD l k with
  | none => simp
  | some c => simpa using lookupD_nonneg k c l hl h

theorem setK_nonneg (k : String) (v : Int) (l : Ledger)
    (hl : ledgerNonNeg l = true) (hv : 0 ≤ v) : ledgerNonNeg (setK l k v) = true := by
  induction l with
  | nil => simp [setK, ledgerNonNeg, hv]
  | cons kv rest ih =>
    simp only [ledgerNonNeg, List.all_cons, Bool.and_eq_true, decide_eq_true_eq] at hl
    by_cases hk : (kv.1 == k) = true
    · rw [setK_cons_pos kv rest k v hk]
      simp only [ledgerNonNeg, List.all_cons, Bool.and_eq_true, decide_eq_true_eq]
      exact ⟨hv, hl.2⟩
    · rw [setK_cons_neg kv rest k v hk]
      simp only [ledgerNonNeg, List.all_cons, Bool.and_eq_true, decide_eq_true_eq]
      exact ⟨hl.1, ih hl.2⟩

theorem lookupD_setK_self (k : String) (v : Int) (l : Ledger) :
    lookupD (setK l k v) k = some v := by
  induction l with
  | nil => simp [setK, lookupD]
  | cons kv rest ih =>
    by_cases hk : (kv.1 == k) = true
    · rw [setK_cons_pos kv rest k v hk]
      exact lookupD_cons_pos (k, v) rest k (by simp)
    · rw [setK_cons_neg kv rest k v hk, lookupD_cons_neg kv _ k hk]
      exact ih

theorem lookupD_isSome_of_mem_keys (k : String) (l : Ledger)
    (h : k ∈ l.map (fun kv => kv.1)) : ∃ c, lookupD l k = some c := by
  induction l with
  | nil => simp at h
  | cons kv rest ih =>
    by_cases hk : (kv.1 == k) = true
    · exact ⟨kv.2, lookupD_cons_pos kv rest k hk⟩
    · simp only [List.map_cons, List.mem_cons] at h
      rcases h with h | h
      · exact absurd (by simp [h] : (kv.1 == k) = true) hk
      · rw [lookupD_cons_neg kv rest k hk]
        exact ih h

theorem keys_setK (k : String) (v : Int) (l : Ledger)
    (h : k ∈ l.map (fun kv => kv.1)) :
    (setK l k v).map (fun kv => kv.1) = l.map (fun kv => kv.1) := by
  induction l with
  | nil => simp at h
  | cons kv rest ih =>
    by_cases hk : (kv.1 == k) = true
    · rw [setK_cons_pos kv rest k v hk]
      simp only [List.map_cons]
      simp only [beq_iff_eq] at hk
      rw [hk]
    · simp only [List.map_cons, List.mem_cons] at h
      rcases h with h | h
      · exact absurd (by simp [h] : (kv.1 == k) = true) hk
      · rw [setK_cons_neg kv rest k v hk]
        simp only [List.map_cons, ih h]

theorem setK_setK (k : String) (v w : Int) (l : Ledger) :
    setK (setK l k v) k w = setK l k w := by
  induction l with
  | nil => simp [setK]
  | cons kv rest ih =>
    by_cases hk : (kv.1 == k) = true
    · rw [setK_cons_pos kv rest k v hk, setK_cons_pos (k, v) rest k w (by simp),
        setK_cons_pos kv rest k w hk]
    · rw [setK_cons_neg kv rest k v hk, setK_cons_neg kv _ k w hk,
        setK_cons_neg kv rest k w hk, ih]

theorem setK_lookup_self (k : String) (c : Int) (l : Ledger)
    (hc : lookupD l k = some c) : setK l k c = l := by
  induction l with
  | nil => simp [lookupD] at hc
  | cons kv rest ih =>
    by_cases hk : (kv.1 == k) = true
    · rw [lookupD_cons_pos kv rest k hk] at hc
      have hcc : kv.2 = c := Option.some.inj hc
      have hkk : kv.1 = k := by simpa using hk
      rw [setK_cons_pos kv rest k c hk, ← hkk, ← hcc]
    · rw [lookupD_cons_neg kv rest k hk] at hc
      rw [setK_cons_neg kv rest k c hk, ih hc]

theorem findMatch_mem_keys (l : Ledger) (p : String) (k : String)
    (h : findMatch l p = some k) : k ∈ l.map (fun kv => kv.1) :=
  List.mem_of_find?_eq_some h

theorem findMatch_eq_of_keys_eq (l l' : Ledger) (p : String)
    (h : l.map (fun kv => kv.1) = l'.map (fun kv => kv.1)) :
    findMatch l p = findMatch l' p := by
  simp only [findMatch, h]

/-! ## C1, C4, C8 -/

/-- C1 (counterexample): the claim fails as stated. Starting from the
all-non-negative default ledger, addstock with amount -1 (any integer amount
is claimed) drives the count of "Hex Lifetime" to -1: addstock does not clamp
at zero. -/
theorem c1_addstock_negative_counterexample :
    ledgerNonNeg defaultStock = true ∧
    addStockOp defaultStock "Hex Lifetime" (-1) =
      [("Hex Lifetime", -1), ("Hex Monthly", 0), ("SRC Lifetime", 0), ("SRC Monthly", 0)] ∧
    ledgerNonNeg (addStockOp defaultStock "Hex Lifetime" (-1)) = false := by
  refine ⟨by decide, by decide, by decide⟩

/-- C1 (amended): for every ledger whose counts are all non-negative,
addStock with a non-negative amount, removeStock with any amount, and
resetStock all yield ledgers whose counts are all non-negative; addStock with
a negative amount may drive a count below zero since it does not clamp. -/
theorem c1_mutations_preserve_nonneg (l : Ledger) (p : String) (a : Int)
    (hl : ledgerNonNeg l = true) :
    (0 ≤ a → ledgerNonNeg (addStockOp l p a) = true) ∧
    ledgerNonNeg (removeStockOp l p a) = true ∧
    ledgerNonNeg (resetStockOp l) = true := by
  refine ⟨fun ha => ?_, ?_, ?_⟩
  · unfold addStockOp
    cases hm : findMatch l p with
    | none => exact hl
    | some k =>
      exact setK_nonneg k _ l hl (add_nonneg (getD0_nonneg k l hl) ha)
  · unfold removeStockOp
    cases hm : findMatch l p with
    | none => exact hl
    | some k => exact setK_nonneg k _ l hl (le_max_left 0 _)
  · simp [resetStockOp, ledgerNonNeg, List.all_map, Function.comp_def]

theorem c1_mutations_preserve_nonneg_witness :
    ledgerNonNeg defaultStock = true ∧
    (0 ≤ (2 : Int)) ∧
    ledgerNonNeg (addStockOp defaultStock "Hex Lifetime" 2) = true ∧
    ledgerNonNeg (removeStockOp defaultStock "Hex Lifetime" 2) = true ∧
    ledgerNonNeg (resetStockOp defaultStock) = true := by
  have h := c1_mutations_preserve_nonneg defaultStock "Hex Lifetime" 2 (by decide)
  exact ⟨by decide, by decide, h.1 (by decide), h.2.1, h.2.2⟩

/-- C4: removeStock on a matched product with initial count c ≥ 0 and amount
a ≥ 0 sets that product's count to max(0, c - a), never below zero. -/
theorem c4_removeStock_clamped (l : Ledger) (p k : String) (a c : Int)
    (hm : findMatch l p = some k) (hc : lookupD l k = some c)
    (h0 : 0 ≤ c) (ha : 0 ≤ a) :
    lookupD (removeStockOp l p a) k = some (max 0 (c - a)) ∧ 0 ≤ max 0 (c - a) := by
  constructor
  · simp only [removeStockOp, hm, hc, Option.getD_some]
    exact lookupD_setK_self k (max 0 (c - a)) l
  · exact le_max_left 0 _

theorem c4_removeStock_clamped_witness :
    lookupD (removeStockOp [("Hex Lifetime", (2 : Int))] "hex lifetime" 5) "Hex Lifetime" =
      some (max 0 (2 - 5)) ∧ 0 ≤ max 0 ((2 : Int) - 5) := by
  exact c4_removeStock_clamped [("Hex Lifetime", 2)] "hex lifetime" "Hex Lifetime" 5 2
    (by decide) (by decide) (by decide) (by decide)

/-- C8: addStock then removeStock of the same amount on the same product
returns the ledger to its prior state, provided no clamping occurred, i.e.
the matched entry's prior count was non-negative (addStock itself never
clamps, and removeStock's clamp fires exactly when that count is negative). -/
theorem c8_add_remove_round_trip (l : Ledger) (p : String) (a : Int)
    (h : matchedNonNeg l p = true) :
    removeStockOp (addStockOp l p a) p a = l := by
  cases hm : findMatch l p with
  | none =>
    simp only [addStockOp, removeStockOp, hm]
  | some k =>
    have hk : k ∈ l.map (fun kv => kv.1) := findMatch_mem_keys l p k hm
    obtain ⟨c, hc⟩ := lookupD_isSome_of_mem_keys k l hk
    have h0 : 0 ≤ c := by
      simp only [matchedNonNeg, hm, hc, Option.getD_some, decide_eq_true_eq] at h
      exact h
    have hadd : addStockOp l p a = setK l k (c + a) := by
      simp only [addStockOp, hm, hc, Option.getD_some]
    have hkeys : (setK l k (c + a)).map (fun kv => kv.1) = l.map (fun kv => kv.1) :=
      keys_setK k (c + a) l hk
    have hm' : findMatch (setK l k (c + a)) p = some k := by
      rw [findMatch_eq_of_keys_eq _ l p hkeys, hm]
    rw [hadd]
    simp only [removeStockOp, hm', lookupD_setK_self, Option.getD_some]
    have hmax : max 0 (c + a - a) = c := by omega
    rw [hmax, setK_setK]
    exact setK_lookup_self k c l hc

theorem c8_add_remove_round_trip_witness :
    removeStockOp (addStockOp defaultStock "  hex LIFETIME " 7) "  hex LIFETIME " 7 =
      defaultStock :=
  c8_add_remove_round_trip defaultStock "  hex LIFETIME " 7 (by decide)

/-! ## C7, C2, C3: the authorization gate and error propagation -/

/-- C7: for an invoker whose role set is determinable, the gate returns true
iff that role set and the configured authorized set intersect; an empty
authorized-role configuration denies every invoker. -/
theorem c7_gate_intersection (cfg roles : List Nat) (gf : GuildFetch) :
    (has_authorized_role cfg (.member roles) gf = true ↔ ∃ r, r ∈ roles ∧ r ∈ cfg) ∧
    (∀ inv : Invoker, has_authorized_role [] inv gf = false) := by
  constructor
  · by_cases hc : cfg.isEmpty = true
    · have hcfg : cfg = [] := List.isEmpty_iff.mp hc
      subst hcfg
      simp [has_authorized_role]
    · simp only [has_authorized_role, hc, Bool.false_eq_true, if_false]
      simp [List.any_eq_true, List.contains_iff_exists_mem_beq, beq_iff_eq]
  · intro inv
    simp [has_authorized_role]

theorem c7_gate_intersection_witness :
    has_authorized_role [5] (.member [3, 5]) (.ok none) = true ∧
    has_authorized_role [] (.member [3, 5]) (.ok none) = false := by
  constructor
  · exact (c7_gate_intersection [5] [3, 5] (.ok none)).1.mpr ⟨5, by decide, by decide⟩
  · exact (c7_gate_intersection [] [3, 5] (.ok none)).2 (.member [3, 5])

/-- C2 (code bug): the claim holds for has_authorized_role and the commands
gated by it, but addstock's inline role check reads interaction.user.roles
directly (bot.py line 190), so an invocation whose identity resolves to a
plain user (no roles attribute) raises AttributeError out of the handler
instead of responding with the ephemeral denial. The shared gate on the same
input returns false without raising, and resetstock (which uses the gate)
responds with the denial. -/
theorem c2_addstock_plain_user_raises :
    addstockRun [1] .user defaultStock "Hex Lifetime" 1 (.ok ()) =
      (.error "AttributeError: User object has no attribute roles", defaultStock) ∧
    has_authorized_role [1] .user (.error "fetch_member raised") = false ∧
    resetstockRun [1] .user (.error "fetch_member raised") defaultStock (.ok ()) =
      (.ok ["⛔ You are not authorized."], defaultStock) := by
  refine ⟨rfl, rfl, rfl⟩

/-- C3 (code bug): addstock mutates the in-memory ledger and then writes
stock.json with no try/except (bot.py lines 207-209), so a storage-write
failure propagates out of the handler (the mutated value is kept in memory);
resetstock persists through save_stock (bot.py lines 87-92, 280), which logs
the failure and swallows it. removestock has the same unguarded write as
addstock (bot.py lines 240-241). -/
theorem c3_write_failure_propagates_in_addstock :
    addstockRun [1] (.member [1]) defaultStock "Hex Lifetime" 1 (.error "disk full") =
      (.error "disk full",
        [("Hex Lifetime", 1), ("Hex Monthly", 0), ("SRC Lifetime", 0), ("SRC Monthly", 0)]) ∧
    removestockRun [1] (.member [1]) defaultStock "Hex Monthly" 1 (.error "disk full") =
      (.error "disk full",
        [("Hex Lifetime", 0), ("Hex Monthly", 0), ("SRC Lifetime", 0), ("SRC Monthly", 0)]) ∧
    resetstockRun [1] (.member [1]) (.ok none) defaultStock (.error "disk full") =
      (.ok ["Failed to write stock.json: disk full", "🧹 All stock reset to 0."],
        [("Hex Lifetime", 0), ("Hex Monthly", 0), ("SRC Lifetime", 0), ("SRC Monthly", 0)]) := by
  refine ⟨rfl, rfl, rfl⟩

/-! ## C5: the status embed renderer -/

/-- C5: for each of the four canonical products, the rendered payload shows
the product's line as the in-stock line iff its count is strictly positive;
the count is looked up with default 0, so an absent key renders as out of
stock without error; and the embed's two field values are exactly these
per-product lines. -/
theorem c5_render_in_stock_iff (l : Ledger) :
    ((generate_stock_embed l).hexValue = hexLifetimeLine l ++ "\n" ++ hexMonthlyLine l) ∧
    ((generate_stock_embed l).srcValue = srcLifetimeLine l ++ "\n" ++ srcMonthlyLine l) ∧
    (hexLifetimeLine l = "Lifetime — 🟢 In Stock — **$80**" ↔ 0 < getD0 l "Hex Lifetime") ∧
    (hexMonthlyLine l = "Monthly — 🟢 In Stock — **$13**" ↔ 0 < getD0 l "Hex Monthly") ∧
    (srcLifetimeLine l = "Lifetime — 🟢 In Stock — **$65**" ↔ 0 < getD0 l "SRC Lifetime") ∧
    (srcMonthlyLine l = "Monthly — 🟢 In Stock — **$12**" ↔ 0 < getD0 l "SRC Monthly") ∧
    (lookupD l "Hex Lifetime" = none →
      getD0 l "Hex Lifetime" = 0 ∧
      hexLifetimeLine l = "Lifetime — 🔴 Out of Stock — **$80**") := by
  refine ⟨rfl, rfl, ?_, ?_, ?_, ?_, ?_⟩
  · unfold hexLifetimeLine
    by_cases h : 0 < getD0 l "Hex Lifetime"
    · rw [if_pos h]; exact iff_of_true rfl h
    · rw [if_neg h]; exact iff_of_false (by decide) h
  · unfold hexMonthlyLine
    by_cases h : 0 < getD0 l "Hex Monthly"
    · rw [if_pos h]; exact iff_of_true rfl h
    · rw [if_neg h]; exact iff_of_false (by decide) h
  · unfold srcLifetimeLine
    by_cases h : 0 < getD0 l "SRC Lifetime"
    · rw [if_pos h]; exact iff_of_true rfl h
    · rw [if_neg h]; exact iff_of_false (by decide) h
  · unfold srcMonthlyLine
    by_cases h : 0 < getD0 l "SRC Monthly"
    · rw [if_pos h]; exact iff_of_true rfl h
    · rw [if_neg h]; exact iff_of_false (by decide) h
  · intro hnone
    have h0 : getD0 l "Hex Lifetime" = 0 := by
      unfold getD0; rw [hnone]; rfl
    refine ⟨h0, ?_⟩
    unfold hexLifetimeLine
    rw [h0]
    rfl

theorem c5_render_in_stock_iff_witness :
    hexMonthlyLine [("Hex Monthly", (1 : Int))] = "Monthly — 🟢 In Stock — **$13**" ∧
    getD0 ([] : Ledger) "Hex Lifetime" = 0 ∧
    hexLifetimeLine ([] : Ledger) = "Lifetime — 🔴 Out of Stock — **$80**" := by
  refine ⟨?_, ?_, ?_⟩
  · exact (c5_render_in_stock_iff [("Hex Monthly", 1)]).2.2.2.1.mpr (by decide)
  · exact ((c5_render_in_stock_iff ([] : Ledger)).2.2.2.2.2.2 rfl).1
  · exact ((c5_render_in_stock_iff ([] : Ledger)).2.2.2.2.2.2 rfl).2

/-! ## C6: message reconciliation -/

theorem find?_eq_some_of_first {α : Type} (p : α → Bool) (w : List α) (i : Nat)
    (hi : i < w.length) (hp : p (w.get ⟨i, hi⟩) = true)
    (hj : ∀ (j : Nat) (hji : j < i), p (w.get ⟨j, Nat.lt_trans hji hi⟩) = false) :
    w.find? p = some (w.get ⟨i, hi⟩) := by
  induction w generalizing i with
  | nil => simp at hi
  | cons a rest ih =>
    cases i with
    | zero =>
      simp only [List.get] at hp
      simp [List.find?_cons, hp]
    | succ i' =>
      have h0 : p a = false := hj 0 (Nat.succ_pos i')
      simp only [List.find?_cons, h0, cond_false]
      have hi' : i' < rest.length := Nat.lt_of_succ_lt_succ hi
      have hp' : p (rest.get ⟨i', hi'⟩) = true := hp
      exact ih i' hi' hp' (fun j hji => hj (j + 1) (Nat.succ_lt_succ hji))

/-- C6: reconciliation inspects only the newest 100 messages of the channel
(newest first); if none of them is authored by the bot it sends exactly one
new message, and if the window contains a bot-authored message it edits the
first (newest) such message in place and sends nothing. -/
theorem c6_reconcile_bounded_scan (botId : Nat) (h rest : List Msg) (l : Ledger) :
    (h.length = 100 →
      update_stock_message botId (h ++ rest) l = update_stock_message botId h l) ∧
    ((∀ m ∈ h.take 100, m.author ≠ botId) →
      update_stock_message botId h l = [.send (generate_stock_embed l)]) ∧
    (∀ (i : Nat) (hi : i < (h.take 100).length),
      ((h.take 100).get ⟨i, hi⟩).author = botId →
      (∀ (j : Nat) (hj : j < i), ((h.take 100).get ⟨j, Nat.lt_trans hj hi⟩).author ≠ botId) →
      update_stock_message botId h l =
        [.edit ((h.take 100).get ⟨i, hi⟩) (generate_stock_embed l)]) := by
  refine ⟨?_, ?_, ?_⟩
  · intro hlen
    unfold update_stock_message find_own_stock_message
    rw [List.take_append_of_le_length (by omega)]
  · intro hnone
    unfold update_stock_message find_own_stock_message
    have : (h.take 100).find? (fun m => m.author == botId) = none := by
      rw [List.find?_eq_none]
      intro m hm
      simpa using hnone m hm
    rw [this]
  · intro i hi hp hj
    unfold update_stock_message find_own_stock_message
    have : (h.take 100).find? (fun m => m.author == botId) =
        some ((h.take 100).get ⟨i, hi⟩) := by
      refine find?_eq_some_of_first _ _ i hi (by simpa using hp) ?_
      intro j hji
      simpa using hj j hji
    rw [this]

theorem c6_reconcile_bounded_scan_witness :
    update_stock_message 9 (List.replicate 100 (Msg.mk 1 1) ++ [Msg.mk 9 2]) defaultStock =
      update_stock_message 9 (List.replicate 100 (Msg.mk 1 1)) defaultStock ∧
    update_stock_message 9 [Msg.mk 1 1, Msg.mk 2 2] defaultStock =
      [.send (generate_stock_embed defaultStock)] ∧
    update_stock_message 9 [Msg.mk 1 1, Msg.mk 9 2, Msg.mk 9 3] defaultStock =
      [.edit (([Msg.mk 1 1, Msg.mk 9 2, Msg.mk 9 3].take 100).get ⟨1, by decide⟩)
        (generate_stock_embed defaultStock)] := by
  refine ⟨?_, ?_, ?_⟩
  · exact (c6_reconcile_bounded_scan 9 (List.replicate 100 (Msg.mk 1 1)) [Msg.mk 9 2]
      defaultStock).1 (by simp)
  · exact (c6_reconcile_bounded_scan 9 [Msg.mk 1 1, Msg.mk 2 2] [] defaultStock).2.1
      (by decide)
  · exact (c6_reconcile_bounded_scan 9 [Msg.mk 1 1, Msg.mk 9 2, Msg.mk 9 3] []
      defaultStock).2.2 1 (by decide) (by decide) (by decide)

/-! ## C9: the ticket-creation watcher -/

/-- C9: the watcher ignores channels whose parent category differs from the
watched one; for a watched-category channel with no alert recipient it only
logs the skip and performs no further action; and any exception raised inside
the body is caught and turned into a log line, so nothing propagates out of
the handler. -/
theorem c9_watcher_filters_and_never_throws (cfg : TicketCfg) (ch : NewChannel)
    (env : WatchEnv) :
    (ch.category_id ≠ some cfg.ticket_category_id →
      on_guild_channel_create cfg ch env = []) ∧
    (ch.category_id = some cfg.ticket_category_id → cfg.alert_user_id = 0 →
      on_guild_channel_create cfg ch env =
        [.logLine "alert_user_id not configured; skipping ticket DM."]) ∧
    (∀ e, watcherBody cfg ch env = .error e →
      on_guild_channel_create cfg ch env =
        [.logLine ("⚠️ Ticket watcher error: " ++ e)]) := by
  refine ⟨?_, ?_, ?_⟩
  · intro hne
    unfold on_guild_channel_create watcherBody
    rw [if_pos hne]
  · intro hcat h0
    unfold on_guild_channel_create watcherBody
    rw [if_neg (by simp [hcat]), if_pos h0]
  · intro e he
    unfold on_guild_channel_create
    rw [he]

theorem c9_watcher_filters_and_never_throws_witness :
    on_guild_channel_create ⟨10, 0⟩ ⟨"ticket-123456789012345678", some 11, "<#1>"⟩
      ⟨.ok (some 9), fun _ => .error "not found", .ok ()⟩ = [] ∧
    on_guild_channel_create ⟨10, 0⟩ ⟨"ticket-123456789012345678", some 10, "<#1>"⟩
      ⟨.ok (some 9), fun _ => .error "not found", .ok ()⟩ =
      [.logLine "alert_user_id not configured; skipping ticket DM."] ∧
    on_guild_channel_create ⟨10, 9⟩ ⟨"ticket-123456789012345678", some 10, "<#1>"⟩
      ⟨.ok (some 9), fun _ => .error "not found", .error "DMs closed"⟩ =
      [.logLine ("⚠️ Ticket watcher error: " ++ "DMs closed")] := by
  refine ⟨?_, ?_, ?_⟩
  · exact (c9_watcher_filters_and_never_throws ⟨10, 0⟩
      ⟨"ticket-123456789012345678", some 11, "<#1>"⟩
      ⟨.ok (some 9), fun _ => .error "not found", .ok ()⟩).1 (by decide)
  · exact (c9_watcher_filters_and_never_throws ⟨10, 0⟩
      ⟨"ticket-123456789012345678", some 10, "<#1>"⟩
      ⟨.ok (some 9), fun _ => .error "not found", .ok ()⟩).2.1 (by decide) (by decide)
  · exact (c9_watcher_filters_and_never_throws ⟨10, 9⟩
      ⟨"ticket-123456789012345678", some 10, "<#1>"⟩
      ⟨.ok (some 9), fun _ => .error "not found", .error "DMs closed"⟩).2.2
      "DMs closed" (by rfl)

/-! ## C10: digit extraction from channel names -/

theorem digitPrefixLen_cons (c : Char) (cs : List Char) :
    digitPrefixLen (c :: cs) = if c.isDigit then digitPrefixLen cs + 1 else 0 := rfl

theorem digitPrefixLen_append_all (run post : List Char)
    (h : run.all Char.isDigit = true) :
    digitPrefixLen (run ++ post) = run.length + digitPrefixLen post := by
  induction run with
  | nil => simp [digitPrefixLen]
  | cons c cs ih =>
    simp only [List.all_cons, Bool.and_eq_true] at h
    rw [List.cons_append, digitPrefixLen_cons, if_pos h.1, ih h.2, List.length_cons]
    omega

theorem digitPrefixLen_append_stop :
    ∀ (pre rest : List Char), pre ≠ [] → lastNotDigit pre = true →
      digitPrefixLen (pre ++ rest) = digitPrefixLen pre
  | [], _, hne, _ => absurd rfl hne
  | [c], rest, _, hl => by
    have hc : c.isDigit = false := by simpa [lastNotDigit] using hl
    simp [digitPrefixLen_cons, hc]
  | p :: c :: cs, rest, _, hl => by
    have hl' : lastNotDigit (c :: cs) = true := hl
    have ih := digitPrefixLen_append_stop (c :: cs) rest (by simp) hl'
    have e1 : (p :: c :: cs) ++ rest = p :: ((c :: cs) ++ rest) := rfl
    rw [e1, digitPrefixLen_cons, ih, ← digitPrefixLen_cons]

theorem lastNotDigit_tail (p : Char) (pre : List Char)
    (h : lastNotDigit (p :: pre) = true) : lastNotDigit pre = true := by
  cases pre with
  | nil => rfl
  | cons c cs => exact h

theorem reSearch_none_of_short_runs (s : List Char)
    (h : ∀ i, i ≤ s.length → digitPrefixLen (s.drop i) ≤ 16) :
    reSearch17to19 s = none := by
  induction s with
  | nil => rfl
  | cons c cs ih =>
    have h0 : digitPrefixLen (c :: cs) ≤ 16 := by simpa using h 0 (by omega)
    simp only [reSearch17to19]
    rw [if_neg (by omega)]
    refine ih (fun i hi => ?_)
    have := h (i + 1) (by simpa using Nat.succ_le_succ hi)
    simpa using this

theorem reSearch_finds_long_run (pre run post : List Char)
    (hall : run.all Char.isDigit = true) (hlen : 20 ≤ run.length)
    (hlast : lastNotDigit pre = true)
    (hpre : ∀ i, i < pre.length → digitPrefixLen (pre.drop i) ≤ 16) :
    reSearch17to19 (pre ++ (run ++ post)) = some (run.take 19) := by
  induction pre with
  | nil =>
    simp only [List.nil_append]
    cases run with
    | nil => simp at hlen
    | cons r rs =>
      have hn : digitPrefixLen ((r :: rs) ++ post) = (r :: rs).length + digitPrefixLen post :=
        digitPrefixLen_append_all _ post hall
      simp only [List.length_cons] at hn hlen
      have e1 : (r :: rs) ++ post = r :: (rs ++ post) := rfl
      rw [e1] at hn
      simp only [reSearch17to19, List.cons_append, List.append_eq]
      rw [if_pos (by omega)]
      have hmin : min (digitPrefixLen (r :: (rs ++ post))) 19 = 19 := by omega
      rw [hmin, ← e1, List.take_append_of_le_length (by simp; omega)]
  | cons p pre' ih =>
    have hstop : digitPrefixLen ((p :: pre') ++ (run ++ post)) = digitPrefixLen (p :: pre') :=
      digitPrefixLen_append_stop (p :: pre') (run ++ post) (by simp) hlast
    have h0 : digitPrefixLen (p :: pre') ≤ 16 := by simpa using hpre 0 (by simp)
    simp only [List.cons_append] at hstop ⊢
    simp only [reSearch17to19]
    rw [if_neg (by omega)]
    refine ih (lastNotDigit_tail p pre' hlast) (fun i hi => ?_)
    have := hpre (i + 1) (by simpa using Nat.succ_lt_succ hi)
    simpa using this

/-- C10 (counterexample): the claim fails as stated. The channel name below
contains a run of 20 digits (the twos), yet the search does not yield the
first 19 digits of that run: an earlier 17-digit run (the ones) matches
first, because re.search is leftmost-first. -/
theorem c10_earlier_run_preempts_counterexample :
    ("11111111111111111-22222222222222222222".data =
      "11111111111111111-".data ++ "22222222222222222222".data) ∧
    ("22222222222222222222".data.all Char.isDigit = true) ∧
    ("22222222222222222222".data.length = 20) ∧
    reSearch17to19 "11111111111111111-22222222222222222222".data =
      some "11111111111111111".data ∧
    some "11111111111111111".data ≠ some ("22222222222222222222".data.take 19) := by
  refine ⟨by decide, by decide, by decide, by decide, by decide⟩

/-- C10 (amended): the digit extraction is an unanchored leftmost search for
17 to 19 consecutive digits. A name in which every digit run has at most 16
digits yields no match; and a name containing a run of 20 or more digits,
with no run of 17 or more digits before it, still matches, yielding the
first 19 digits of that run (the leftmost 17-or-more-digit run wins, so an
earlier long-enough run would preempt a later 20-digit run). -/
theorem c10_digit_extraction :
    (∀ s : List Char,
      (∀ i, i ≤ s.length → digitPrefixLen (s.drop i) ≤ 16) →
      reSearch17to19 s = none) ∧
    (∀ pre run post : List Char, run.all Char.isDigit = true → 20 ≤ run.length →
      lastNotDigit pre = true →
      (∀ i, i < pre.length → digitPrefixLen (pre.drop i) ≤ 16) →
      reSearch17to19 (pre ++ (run ++ post)) = some (run.take 19)) :=
  ⟨reSearch_none_of_short_runs, reSearch_finds_long_run⟩

theorem c10_digit_extraction_witness :
    reSearch17to19 "ticket-1234".data = none ∧
    reSearch17to19 ("ticket-".data ++ ("12345678901234567890".data ++ [])) =
      some ("12345678901234567890".data.take 19) := by
  refine ⟨?_, ?_⟩
  · exact c10_digit_extraction.1 "ticket-1234".data (by decide)
  · exact c10_digit_extraction.2 "ticket-".data "12345678901234567890".data []
      (by decide) (by decide) (by decide) (by decide)

end TGPBot
